import Mathlib

/-!
Shallow embedding of the HarmonyArch geometry kernel (Rust) in Lean 4.

Conventions used throughout:
* `f32` values are idealized as real numbers (`ℝ`); numeric literals such as
  `0.1`, `1e-6` denote the exact rationals the source text writes.
* `Uuid` identifiers are modelled as `Nat`; `Uuid::new_v4()` (a fresh, never
  reused identifier) is modelled by a fresh-id counter carried by each registry.
* `HashMap` is modelled by an insertion-ordered association list
  (`List (key × value)`); `HashMap::insert` of a fresh key is modelled by
  consing, and iteration is modelled by insertion order.
* A Rust function that can panic (`unwrap`, `Index` on a missing key, slice
  indexing out of bounds) is modelled by an `Option` result where `none`
  means the panic; `some` is the value actually returned.
-/

namespace HarmonyArch

/-- 3D point, `src/domain/point.rs` (`f32` coordinates, idealized as `ℝ`). -/
structure Point where
  x : ℝ
  y : ℝ
  z : ℝ


/-- 3D vector, `src/domain/primitives/vector.rs`. -/
structure Vector where
  x : ℝ
  y : ℝ
  z : ℝ


/-- `measure_vector` from `src/domain/primitives/vector.rs`: the component-wise
difference `end_point - start_point`. -/
def measure_vector (start_point end_point : Point) : Vector :=
  { x := end_point.x - start_point.x
    y := end_point.y - start_point.y
    z := end_point.z - start_point.z }

/-- A vertex: identifier plus position, `src/domain/primitives/vertex.rs`. -/
structure Vertex where
  id : Nat
  position : Point

/-- `cross_product` as defined (twice, identically) in
`src/domain/validation/coplanar.rs` and `src/domain/validations/colinear.rs`. -/
def cross_product (a b : Vector) : Vector :=
  { x := a.y * b.z - a.z * b.y
    y := a.z * b.x - a.x * b.z
    z := a.x * b.y - a.y * b.x }

/-- `validate_coplanar_vertices` from `src/domain/validation/coplanar.rs`.
For 3 or fewer vertices the answer is `true`; otherwise the plane through the
first three vertices is computed (all points count as coplanar when the normal
is the zero vector), and each remaining vertex must lie within `tolerance` of
that plane.  The loop with an early `return false` is modelled by `List.all`. -/
noncomputable def validate_coplanar_vertices (vertices : List Vertex) (tolerance : ℝ) : Bool :=
  if vertices.length ≤ 3 then true
  else
    match vertices with
    | v1 :: v2 :: v3 :: rest =>
      let vec1 : Vector :=
        { x := v2.position.x - v1.position.x
          y := v2.position.y - v1.position.y
          z := v2.position.z - v1.position.z }
      let vec2 : Vector :=
        { x := v3.position.x - v1.position.x
          y := v3.position.y - v1.position.y
          z := v3.position.z - v1.position.z }
      let normal := cross_product vec1 vec2
      if normal.x = 0 ∧ normal.y = 0 ∧ normal.z = 0 then true
      else
        let d := -(normal.x * v1.position.x + normal.y * v1.position.y +
                   normal.z * v1.position.z)
        rest.all fun vertex =>
          let raw_distance := normal.x * vertex.position.x + normal.y * vertex.position.y +
            normal.z * vertex.position.z + d
          let normal_magnitude :=
            Real.sqrt (normal.x * normal.x + normal.y * normal.y + normal.z * normal.z)
          let actual_distance := |raw_distance| / normal_magnitude
          if actual_distance > tolerance then false else true
    | _ => true

/-- `validate_colinear_vertices` from `src/domain/validations/colinear.rs`.
For 2 or fewer vertices the answer is `true`.  When the first two vertices
coincide within `precision` (squared comparison) every vertex must lie within
`precision` of the first; otherwise every vertex after the first two must have
a cross product with the line direction of squared magnitude at most
`precision²`.  Early-return loops are modelled by `List.all`. -/
noncomputable def validate_colinear_vertices (vertices : List Vertex) (precision : ℝ) : Bool :=
  if vertices.length ≤ 2 then true
  else
    match vertices with
    | v1 :: v2 :: rest2 =>
      let line_direction : Vector :=
        { x := v2.position.x - v1.position.x
          y := v2.position.y - v1.position.y
          z := v2.position.z - v1.position.z }
      let line_magnitude_squared := line_direction.x * line_direction.x +
        line_direction.y * line_direction.y + line_direction.z * line_direction.z
      let precision_squared := precision * precision
      if line_magnitude_squared ≤ precision_squared then
        (v2 :: rest2).all fun vertex =>
          let dx := vertex.position.x - v1.position.x
          let dy := vertex.position.y - v1.position.y
          let dz := vertex.position.z - v1.position.z
          let distance_squared := dx * dx + dy * dy + dz * dz
          if distance_squared > precision_squared then false else true
      else
        rest2.all fun vertex =>
          let to_vertex : Vector :=
            { x := vertex.position.x - v1.position.x
              y := vertex.position.y - v1.position.y
              z := vertex.position.z - v1.position.z }
          let cross := cross_product line_direction to_vertex
          let cross_magnitude_squared :=
            cross.x * cross.x + cross.y * cross.y + cross.z * cross.z
          if cross_magnitude_squared > precision_squared then false else true
    | _ => true

/-- Accumulator loop of `validate_distinct_ids`
(`src/domain/validations/distinct.rs`): the `HashSet` of already seen ids is
modelled by a list; `insert` returning `false` on a present element is the
membership test. -/
def validate_distinct_loop : List Nat → List Nat → Bool
  | [], _ => true
  | item :: rest, seen =>
    if item ∈ seen then false else validate_distinct_loop rest (item :: seen)

/-- `validate_distinct_ids` from `src/domain/validations/distinct.rs`:
true iff no identifier repeats. -/
def validate_distinct_ids (items : List Nat) : Bool :=
  validate_distinct_loop items []

/-- A segment: identifier plus its two endpoint vertex ids
(`[Uuid; 2]` modelled as a pair), `src/domain/primitives/segment.rs`. -/
structure Segment where
  id : Nat
  vertices : Nat × Nat
deriving DecidableEq

/-- `new_segment` from `src/domain/primitives/segment.rs`: normalizes the
endpoint order (numerically smaller identifier first) and assigns the fresh
identifier.  No other validation is performed. -/
def new_segment (fresh vertex1 vertex2 : Nat) : Segment :=
  { id := fresh
    vertices := if vertex1 < vertex2 then (vertex1, vertex2) else (vertex2, vertex1) }

/-- `SegmentRegistry`, `src/domain/primitives/segment.rs`.  The `HashMap` is an
association list; `next_id` models the fresh-uuid supply. -/
structure SegmentRegistry where
  next_id : Nat
  segments : List (Nat × Segment)
deriving DecidableEq

/-- `SegmentRegistry::create_and_store`: constructs the segment, inserts it,
and returns its identifier.  The Rust signature returns a bare `Uuid`
(construction cannot fail). -/
def SegmentRegistry.create_and_store (reg : SegmentRegistry)
    (start_vertex end_vertex : Nat) : Nat × SegmentRegistry :=
  let segment := new_segment reg.next_id start_vertex end_vertex
  let i := segment.id
  (i, { next_id := reg.next_id + 1, segments := (i, segment) :: reg.segments })

/-- A polygon: identifier plus an ordered list of segment ids,
`src/domain/primitives/polygon.rs`. -/
structure Polygon where
  id : Nat
  segments : List Nat
deriving DecidableEq

/-- `new_polygon` from `src/domain/primitives/polygon.rs`: rejects duplicate
segment ids via `validate_distinct_ids`, otherwise builds the polygon.  The
source's coplanarity validation is an unimplemented `TODO`. -/
def new_polygon (fresh : Nat) (segment_ids : List Nat) : Option Polygon :=
  if validate_distinct_ids segment_ids then some { id := fresh, segments := segment_ids }
  else none

/-- `PolygonRegistry`, `src/domain/primitives/polygon.rs`. -/
structure PolygonRegistry where
  next_id : Nat
  polygons : List (Nat × Polygon)
deriving DecidableEq

/-- `PolygonRegistry::create_and_store`: on construction failure returns
`none` and leaves the registry untouched; on success inserts the polygon and
returns its identifier. -/
def PolygonRegistry.create_and_store (reg : PolygonRegistry)
    (segment_ids : List Nat) : Option Nat × PolygonRegistry :=
  match new_polygon reg.next_id segment_ids with
  | none => (none, reg)
  | some polygon =>
    (some polygon.id,
      { next_id := reg.next_id + 1, polygons := (polygon.id, polygon) :: reg.polygons })

/-- `GeometryState` from `src/domain/constraints/mod.rs`: all points and
vectors of the system, addressed by index. -/
structure GeometryState where
  points : List Point
  vectors : List Vector

/-- `GeometryState::get_point`: `Vec` indexing, `none` when out of range. -/
def GeometryState.get_point (g : GeometryState) (idx : Nat) : Option Point :=
  g.points.get? idx

/-- Writing through `GeometryState::get_point_mut`: overwrite the point at
`idx` (no effect when out of range; callers only reach this after a
successful `get_point`). -/
def GeometryState.set_point (g : GeometryState) (idx : Nat) (p : Point) : GeometryState :=
  { g with points := g.points.set idx p }

/-- `DistanceConstraint` from `src/domain/constraints/distance.rs`. -/
structure DistanceConstraint where
  point_a_idx : Nat
  point_b_idx : Nat
  required_distance : ℝ
  priority : Nat

/-- `HorizontalConstraint` from `src/domain/constraints/horizontal.rs`. -/
structure HorizontalConstraint where
  point_a_idx : Nat
  point_b_idx : Nat
  priority : Nat

/-- `HeightConstraint` from `src/domain/constraints/horizontal.rs`. -/
structure HeightConstraint where
  point_idx : Nat
  required_height : ℝ
  priority : Nat

/-- `VerticalConstraint` from `src/domain/constraints/vertical.rs`. -/
structure VerticalConstraint where
  point_a_idx : Nat
  point_b_idx : Nat
  priority : Nat

/-- `VerticalAlignmentConstraint` from `src/domain/constraints/vertical.rs`. -/
structure VerticalAlignmentConstraint where
  base_point_idx : Nat
  aligned_point_idx : Nat
  priority : Nat

/-- The closed set of `Constraint` trait implementations in the source
(`src/domain/constraints/*`), as a tagged variant. -/
inductive ConstraintObj where
  | distance (c : DistanceConstraint)
  | horizontal (c : HorizontalConstraint)
  | height (c : HeightConstraint)
  | vertical (c : VerticalConstraint)
  | verticalAlignment (c : VerticalAlignmentConstraint)

/-- `Constraint::residual` of each constraint kind; `none` models the
`unwrap` panic on an out-of-range point index. -/
noncomputable def ConstraintObj.residual (c : ConstraintObj) (g : GeometryState) : Option ℝ :=
  match c with
  | .distance c =>
    match g.get_point c.point_a_idx, g.get_point c.point_b_idx with
    | some point_a, some point_b =>
      let vector := measure_vector point_a point_b
      let actual_distance :=
        Real.sqrt (vector.x * vector.x + vector.y * vector.y + vector.z * vector.z)
      some |actual_distance - c.required_distance|
    | _, _ => none
  | .horizontal c =>
    match g.get_point c.point_a_idx, g.get_point c.point_b_idx with
    | some point_a, some point_b => some |point_b.z - point_a.z|
    | _, _ => none
  | .height c =>
    match g.get_point c.point_idx with
    | some point => some |point.z - c.required_height|
    | _ => none
  | .vertical c =>
    match g.get_point c.point_a_idx, g.get_point c.point_b_idx with
    | some point_a, some point_b =>
      let dx := point_b.x - point_a.x
      let dy := point_b.y - point_a.y
      some (Real.sqrt (dx * dx + dy * dy))
    | _, _ => none
  | .verticalAlignment c =>
    match g.get_point c.base_point_idx, g.get_point c.aligned_point_idx with
    | some base_point, some aligned_point =>
      let dx := aligned_point.x - base_point.x
      let dy := aligned_point.y - base_point.y
      some (Real.sqrt (dx * dx + dy * dy))
    | _, _ => none

/-- `Constraint::priority` of each constraint kind. -/
def ConstraintObj.priority : ConstraintObj → Nat
  | .distance c => c.priority
  | .horizontal c => c.priority
  | .height c => c.priority
  | .vertical c => c.priority
  | .verticalAlignment c => c.priority

/-- `SolverResult` from `src/domain/constraints/mod.rs`. -/
inductive SolverResult where
  | Converged (iterations : Nat)
  | MaxIterationsReached
  | Failed (message : String)
deriving DecidableEq

/-- `SolverConfig` from `src/domain/constraints/mod.rs`. -/
structure SolverConfig where
  max_iterations : Nat
  tolerance : ℝ
  damping : ℝ

/-- `SolverConfig::default()`: 100 iterations, tolerance `1e-6`,
damping `0.5`. -/
noncomputable def SolverConfig.default_config : SolverConfig :=
  { max_iterations := 100, tolerance := 1e-6, damping := 0.5 }

/-- `ConstraintSolver` from `src/domain/constraints/mod.rs`. -/
structure ConstraintSolver where
  geometry : GeometryState
  constraints : List ConstraintObj
  config : SolverConfig

/-- `ConstraintSolver::relax_distance_constraint`: move both points half of
the damped adjustment along the current vector; when the current distance is
zero, nudge point B by `0.1` in `x` instead.  `none` models the `unwrap`
panics on invalid indices. -/
noncomputable def relax_distance_constraint (cfg : SolverConfig) (g : GeometryState)
    (c : DistanceConstraint) : Option GeometryState :=
  match g.get_point c.point_a_idx, g.get_point c.point_b_idx with
  | some point_a, some point_b =>
    let vector := measure_vector point_a point_b
    let current_distance :=
      Real.sqrt (vector.x * vector.x + vector.y * vector.y + vector.z * vector.z)
    if current_distance = 0 then
      some (g.set_point c.point_b_idx
        { x := point_b.x + 0.1, y := point_b.y, z := point_b.z })
    else
      let scale_factor := c.required_distance / current_distance
      let adjustment_x := vector.x * (scale_factor - 1) * cfg.damping
      let adjustment_y := vector.y * (scale_factor - 1) * cfg.damping
      let adjustment_z := vector.z * (scale_factor - 1) * cfg.damping
      let g1 := g.set_point c.point_a_idx
        { x := point_a.x - adjustment_x * 0.5
          y := point_a.y - adjustment_y * 0.5
          z := point_a.z - adjustment_z * 0.5 }
      match g1.get_point c.point_b_idx with
      | some point_b_mut =>
        some (g1.set_point c.point_b_idx
          { x := point_b_mut.x + adjustment_x * 0.5
            y := point_b_mut.y + adjustment_y * 0.5
            z := point_b_mut.z + adjustment_z * 0.5 })
      | none => none
  | _, _ => none

/-- `ConstraintSolver::relax_constraints`: collect the `DistanceConstraint`s
(the `Any` downcast keeps only those) in order, then relax each in turn. -/
noncomputable def relax_constraints (cfg : SolverConfig) (cs : List ConstraintObj)
    (g : GeometryState) : Option GeometryState :=
  let distance_constraints := cs.filterMap fun c =>
    match c with
    | .distance d => some d
    | _ => none
  distance_constraints.foldlM (fun gg d => relax_distance_constraint cfg gg d) g

/-- The `max_residual` accumulation loop inside
`ConstraintSolver::solve_iterative`, starting from `0.0`. -/
noncomputable def max_residual_loop : List ConstraintObj → GeometryState → ℝ → Option ℝ
  | [], _, acc => some acc
  | c :: cs, g, acc =>
    match c.residual g with
    | some r => max_residual_loop cs g (max acc r)
    | none => none

/-- One pass of the `for iteration in 0..max_iterations` loop of
`ConstraintSolver::solve_iterative`, with `fuel` remaining iterations and
`iteration` the current 0-based index. -/
noncomputable def solve_iterative_loop (cfg : SolverConfig) (cs : List ConstraintObj) :
    Nat → Nat → GeometryState → Option SolverResult
  | 0, _, _ => some SolverResult.MaxIterationsReached
  | fuel + 1, iteration, g =>
    match max_residual_loop cs g 0 with
    | none => none
    | some max_residual =>
      if max_residual < cfg.tolerance then some (SolverResult.Converged (iteration + 1))
      else
        match relax_constraints cfg cs g with
        | none => none
        | some g1 => solve_iterative_loop cfg cs fuel (iteration + 1) g1

/-- `ConstraintSolver::solve_iterative`. -/
noncomputable def solve_iterative (s : ConstraintSolver) : Option SolverResult :=
  solve_iterative_loop s.config s.constraints s.config.max_iterations 0 s.geometry

/-- Stable insertion of a constraint into a priority-sorted list (a later
element is never placed before an equal-priority earlier one), modelling the
stable `sort_by_key`. -/
def insert_by_priority (c : ConstraintObj) : List ConstraintObj → List ConstraintObj
  | [] => [c]
  | d :: ds =>
    if c.priority ≤ d.priority then c :: d :: ds else d :: insert_by_priority c ds

/-- Stable sort by `Constraint::priority`, modelling
`constraints.sort_by_key(|c| c.priority())`. -/
def sort_by_priority : List ConstraintObj → List ConstraintObj
  | [] => []
  | c :: cs => insert_by_priority c (sort_by_priority cs)

/-- `ConstraintSolver::solve`: zero constraints converge immediately in 0
iterations; otherwise sort by priority and run the iterative solver. -/
noncomputable def ConstraintSolver.solve (s : ConstraintSolver) : Option SolverResult :=
  if s.constraints.isEmpty then some (SolverResult.Converged 0)
  else
    solve_iterative
      { s with constraints := sort_by_priority s.constraints }

/-- `bevy::Vec3`, idealized over `ℝ`, used by
`src/application/triangulation.rs`. -/
structure Vec3 where
  x : ℝ
  y : ℝ
  z : ℝ

/-- `Vec3` addition. -/
def Vec3.add (a b : Vec3) : Vec3 := ⟨a.x + b.x, a.y + b.y, a.z + b.z⟩

/-- `Vec3` subtraction. -/
def Vec3.sub (a b : Vec3) : Vec3 := ⟨a.x - b.x, a.y - b.y, a.z - b.z⟩

/-- `Vec3` negation. -/
def Vec3.neg (a : Vec3) : Vec3 := ⟨-a.x, -a.y, -a.z⟩

/-- `Vec3` division by a scalar (`/=` on bevy vectors). -/
noncomputable def Vec3.divScalar (a : Vec3) (s : ℝ) : Vec3 := ⟨a.x / s, a.y / s, a.z / s⟩

/-- `Vec3::dot`. -/
def Vec3.dot (a b : Vec3) : ℝ := a.x * b.x + a.y * b.y + a.z * b.z

/-- `Vec3::cross`. -/
def Vec3.cross (a b : Vec3) : Vec3 :=
  ⟨a.y * b.z - a.z * b.y, a.z * b.x - a.x * b.z, a.x * b.y - a.y * b.x⟩

/-- `Vec3::normalize`: divide by the Euclidean length. -/
noncomputable def Vec3.normalize (a : Vec3) : Vec3 :=
  Vec3.divScalar a (Real.sqrt (Vec3.dot a a))

/-- `WindingOrder` from `src/application/triangulation.rs`. -/
inductive WindingOrder where
  | Clockwise
  | CounterClockwise
deriving DecidableEq

/-- `TriangulatedFace` from `src/application/triangulation.rs`. -/
structure TriangulatedFace where
  vertices : List Vec3
  normal : Vec3
  winding_order : WindingOrder

/-- Increment a vertex occurrence counter
(`*vertex_counts.entry(id).or_insert(0) += 1`), keeping insertion order. -/
def bump_count (m : List (Nat × Nat)) (k : Nat) : List (Nat × Nat) :=
  if (m.lookup k).isSome then
    m.map fun kv => if kv.1 = k then (kv.1, kv.2 + 1) else kv
  else m ++ [(k, 1)]

/-- Append a connection to a vertex adjacency entry
(`vertex_connections.entry(id).or_insert_with(Vec::new).push(other)`),
keeping insertion order. -/
def add_connection (m : List (Nat × List Nat)) (k v : Nat) : List (Nat × List Nat) :=
  if (m.lookup k).isSome then
    m.map fun kv => if kv.1 = k then (kv.1, kv.2 ++ [v]) else kv
  else m ++ [(k, [v])]

/-- The body of the first loop of `triangulate_polygon_for_rendering`: count
both endpoints of one segment and record the two directed adjacencies;
`none` models the `&segments[segment_id]` panic on a missing id. -/
def connectivity_step (segments : List (Nat × Segment))
    (acc : List (Nat × Nat) × List (Nat × List Nat)) (segment_id : Nat) :
    Option (List (Nat × Nat) × List (Nat × List Nat)) :=
  match segments.lookup segment_id with
  | none => none
  | some segment =>
    let counts := bump_count (bump_count acc.1 segment.vertices.1) segment.vertices.2
    let conns := add_connection
      (add_connection acc.2 segment.vertices.1 segment.vertices.2)
      segment.vertices.2 segment.vertices.1
    some (counts, conns)

/-- Step 1 of `triangulate_polygon_for_rendering`: fold over the polygon's
segment ids building `vertex_counts` and the bidirectional
`vertex_connections`. -/
def build_connectivity (polygon_segments : List Nat) (segments : List (Nat × Segment)) :
    Option (List (Nat × Nat) × List (Nat × List Nat)) :=
  polygon_segments.foldlM (connectivity_step segments) ([], [])

/-- Step 2 of `triangulate_polygon_for_rendering`: the `while` walk along the
connectivity graph collecting ordered vertex positions.  `fuel` bounds the
loop (the caller passes one more than the vertex count, which the loop can
never exceed: every pass visits a previously unvisited vertex); `none` models
the `vertices[&vertex_id]` / `vertex_connections[&vertex_id]` panics. -/
def walk_loop (vertices : List (Nat × Vertex)) (conns : List (Nat × List Nat))
    (total : Nat) :
    Nat → Nat → List Nat → List Vec3 → Option (List Vec3)
  | 0, _, _, ordered => some ordered
  | fuel + 1, current, visited, ordered =>
    if visited.length < total then
      match vertices.lookup current with
      | none => none
      | some vertex =>
        let ordered1 := ordered ++
          [⟨vertex.position.x, vertex.position.y, vertex.position.z⟩]
        let visited1 := visited ++ [current]
        match conns.lookup current with
        | none => none
        | some connections =>
          match connections.find? (fun id => !(visited1.contains id)) with
          | some next_id => walk_loop vertices conns total fuel next_id visited1 ordered1
          | none => some ordered1
    else some ordered

/-- Step 5 of `triangulate_polygon_for_rendering`: one fan triangle (index
`i`), with vertex order depending on the winding order; `none` models an
out-of-bounds index (unreachable here since `i + 2 < ordered.length`). -/
def fan_triangle (ordered : List Vec3) (normal : Vec3) (winding : WindingOrder)
    (i : Nat) : Option TriangulatedFace :=
  match ordered.get? 0, ordered.get? (i + 1), ordered.get? (i + 2) with
  | some a, some b, some c =>
    if winding = WindingOrder.CounterClockwise then
      some { vertices := [a, b, c], normal := normal, winding_order := winding }
    else
      some { vertices := [a, c, b], normal := normal, winding_order := winding }
  | _, _, _ => none

/-- `triangulate_polygon_for_rendering` from `src/application/triangulation.rs`.
`some faces` is the returned vector (`some []` the explicit empty-result
rejections); `none` models a panic.  The arbitrary start vertex of the Rust
`HashMap` iteration is modelled by insertion order. -/
noncomputable def triangulate_polygon_for_rendering (polygon : Polygon)
    (segments : List (Nat × Segment)) (vertices : List (Nat × Vertex)) :
    Option (List TriangulatedFace) :=
  match build_connectivity polygon.segments segments with
  | none => none
  | some (vertex_counts, vertex_connections) =>
    if !(vertex_counts.all fun kv => kv.2 == 2) then some []
    else
      match vertex_connections.find? (fun kv => kv.2.length == 2) with
      | none => some []
      | some start =>
        match walk_loop vertices vertex_connections vertex_counts.length
            (vertex_counts.length + 1) start.1 [] [] with
        | none => none
        | some ordered_vertices =>
          if ordered_vertices.length ≠ vertex_counts.length then some []
          else
            let solid_sum := vertices.foldl
              (fun acc kv => Vec3.add acc
                ⟨kv.2.position.x, kv.2.position.y, kv.2.position.z⟩)
              ⟨0, 0, 0⟩
            let solid_center := Vec3.divScalar solid_sum (vertices.length : ℝ)
            let polygon_center := Vec3.divScalar
              (ordered_vertices.foldl Vec3.add ⟨0, 0, 0⟩)
              (ordered_vertices.length : ℝ)
            let solid_to_polygon := Vec3.sub polygon_center solid_center
            match ordered_vertices.get? 0, ordered_vertices.get? 1,
                ordered_vertices.get? 2 with
            | some v0, some v1, some v2 =>
              let edge1 := Vec3.sub v1 v0
              let edge2 := Vec3.sub v2 v0
              let face_normal := Vec3.normalize (Vec3.cross edge1 edge2)
              let normal_dot := Vec3.dot face_normal solid_to_polygon
              let winding := if normal_dot > 0 then WindingOrder.CounterClockwise
                else WindingOrder.Clockwise
              let normal := if normal_dot > 0 then face_normal
                else Vec3.neg face_normal
              let triangle_count := ordered_vertices.length - 2
              (List.range triangle_count).mapM
                (fan_triangle ordered_vertices normal winding)
            | _, _, _ => none

/-! ## Helper lemmas -/

/-- The seen-set loop of `validate_distinct_ids` succeeds exactly when the
remaining items are duplicate-free and disjoint from the seen set. -/
theorem validate_distinct_loop_iff :
    ∀ (items seen : List Nat),
      validate_distinct_loop items seen = true ↔
        items.Nodup ∧ ∀ x ∈ items, x ∉ seen := by
  intro items
  induction items with
  | nil => intro seen; simp [validate_distinct_loop]
  | cons i rest ih =>
    intro seen
    rw [validate_distinct_loop]
    by_cases h : i ∈ seen
    · rw [if_pos h]
      constructor
      · intro hcontra
        exact absurd hcontra Bool.false_ne_true
      · rintro ⟨_, hall⟩
        exact absurd h (hall i (List.mem_cons_self i rest))
    · rw [if_neg h, ih (i :: seen)]
      simp only [List.nodup_cons, List.mem_cons, not_or]
      constructor
      · rintro ⟨hnd, hall⟩
        refine ⟨⟨fun hir => ((hall i hir).1 rfl), hnd⟩, ?_⟩
        rintro x (rfl | hx)
        · exact h
        · exact ((hall x hx).2)
      · rintro ⟨⟨hir, hnd⟩, hall⟩
        refine ⟨hnd, fun x hx => ⟨fun he => hir (he ▸ hx), ?_⟩⟩
        exact hall x (Or.inr hx)

/-- `validate_distinct_ids` decides `List.Nodup`. -/
theorem validate_distinct_ids_iff (items : List Nat) :
    validate_distinct_ids items = true ↔ items.Nodup := by
  rw [validate_distinct_ids, validate_distinct_loop_iff]
  simp

/-! ## Claims -/

/-- C1 (counterexample): a self-loop is not rejected. On the concrete registry
with fresh-id counter 7 and no segments, `create_and_store 0 0` does return an
identifier (namely 7), stores a segment whose two endpoints are both vertex 0,
and changes the registry — contradicting the claim that segment construction
fails on self-loops, returns no identifier and leaves the registry unchanged. -/
theorem seg_self_loop_claim_false :
    (SegmentRegistry.create_and_store ⟨7, []⟩ 0 0).1 = 7 ∧
    (SegmentRegistry.create_and_store ⟨7, []⟩ 0 0).2.segments =
      [(7, { id := 7, vertices := (0, 0) })] ∧
    (SegmentRegistry.create_and_store ⟨7, []⟩ 0 0).2 ≠ (⟨7, []⟩ : SegmentRegistry) := by
  refine ⟨rfl, rfl, ?_⟩
  decide

/-- C1 (amended): segment construction performs no self-loop validation.  For
every vertex identifier `v` and every registry, constructing a segment with
both endpoints `v` succeeds with endpoint array `(v, v)`, and
`SegmentRegistry::create_and_store` inserts it and returns its fresh
identifier (the registry gains exactly that one segment). -/
theorem seg_self_loop_accepted (reg : SegmentRegistry) (v : Nat) :
    (new_segment reg.next_id v v).vertices = (v, v) ∧
    reg.create_and_store v v =
      (reg.next_id,
        { next_id := reg.next_id + 1,
          segments := (reg.next_id, new_segment reg.next_id v v) :: reg.segments }) := by
  exact ⟨by simp [new_segment], rfl⟩

/-- C2: `PolygonRegistry::create_and_store` returns `none` and leaves the
registry unchanged when a segment identifier repeats, and otherwise inserts
exactly one new polygon holding the given segment ids in order and returns
its identifier. -/
theorem polygon_create_reject_or_insert (reg : PolygonRegistry) (ids : List Nat) :
    (¬ ids.Nodup → reg.create_and_store ids = (none, reg)) ∧
    (ids.Nodup → reg.create_and_store ids =
      (some reg.next_id,
        { next_id := reg.next_id + 1,
          polygons := (reg.next_id, { id := reg.next_id, segments := ids })
            :: reg.polygons })) := by
  constructor
  · intro h
    have hv : ¬ (validate_distinct_ids ids = true) := by
      rw [validate_distinct_ids_iff]; exact h
    simp [PolygonRegistry.create_and_store, new_polygon, hv]
  · intro h
    have hv : validate_distinct_ids ids = true := (validate_distinct_ids_iff ids).mpr h
    simp [PolygonRegistry.create_and_store, new_polygon, hv]

/-- C2 (witness): on the empty registry, distinct ids `[1, 2]` are inserted as
polygon 0 and duplicate ids `[1, 1]` are rejected without mutation. -/
theorem polygon_create_reject_or_insert_witness :
    PolygonRegistry.create_and_store ⟨0, []⟩ [1, 2] =
      (some 0, ⟨1, [(0, { id := 0, segments := [1, 2] })]⟩) ∧
    PolygonRegistry.create_and_store ⟨0, []⟩ [1, 1] = (none, ⟨0, []⟩) :=
  ⟨(polygon_create_reject_or_insert ⟨0, []⟩ [1, 2]).2 (by decide),
   (polygon_create_reject_or_insert ⟨0, []⟩ [1, 1]).1 (by decide)⟩

/-- C3 (code bug): polygon construction does not reject non-coplanar input.
`new_polygon` accepts any list of distinct segment ids — it receives neither
vertex positions nor a tolerance (the source marks the coplanarity check as
`TODO`) — even though the corresponding four vertices (the fourth at
`(0.5, 0.5, 0.5)` off the plane of the first three) fail the repository's own
coplanarity predicate at tolerance `0.001`. -/
theorem polygon_accepts_non_coplanar_input :
    new_polygon 9 [0, 1, 2, 3] = some { id := 9, segments := [0, 1, 2, 3] } ∧
    validate_coplanar_vertices
      [⟨0, ⟨0, 0, 0⟩⟩, ⟨1, ⟨1, 0, 0⟩⟩, ⟨2, ⟨0, 1, 0⟩⟩,
       ⟨3, ⟨1/2, 1/2, 1/2⟩⟩] (1/1000) = false := by
  constructor
  · rfl
  · norm_num [validate_coplanar_vertices, cross_product, Real.sqrt_one,
      abs_of_pos (show (0:ℝ) < 1/2 by norm_num)]

/-- C8: constructing a segment from distinct endpoints in either order yields
identical normalized endpoint storage, with the numerically smaller
identifier first. -/
theorem segment_endpoint_order_irrelevant (f1 f2 a b : Nat) (hab : a ≠ b) :
    (new_segment f1 a b).vertices = (new_segment f2 b a).vertices ∧
    (new_segment f1 a b).vertices = (min a b, max a b) := by
  rcases Nat.lt_or_ge a b with h | h
  · have hba : ¬ b < a := Nat.lt_asymm h
    constructor
    · simp [new_segment, h, hba]
    · simp [new_segment, h, Nat.min_eq_left h.le, Nat.max_eq_right h.le]
  · have h2 : b < a := Nat.lt_of_le_of_ne h (Ne.symm hab)
    have hba : ¬ a < b := Nat.lt_asymm h2
    constructor
    · simp [new_segment, h2, hba]
    · simp [new_segment, h2, hba, Nat.min_eq_right h2.le, Nat.max_eq_left h2.le]

/-- C8 (witness): concrete instance with endpoints 1 and 2 (and fresh ids 0
and 5 for the two constructions). -/
theorem segment_endpoint_order_irrelevant_witness :
    (new_segment 0 1 2).vertices = (new_segment 5 2 1).vertices ∧
    (new_segment 0 1 2).vertices = (min 1 2, max 1 2) :=
  segment_endpoint_order_irrelevant 0 5 1 2 (by decide)

/-- A guard of the shape `if c then false else true` succeeds exactly when
the overshoot condition `c` fails. -/
theorem guard_false_true_iff (c : Prop) [Decidable c] :
    ((if c then false else true) = true) ↔ ¬c := by
  by_cases h : c <;> simp [h]

/-- C6: characterization of `validate_coplanar_vertices`.  Lists of at most 3
vertices always pass; for longer lists, a zero normal (collinear first three
vertices) passes, and otherwise the check passes iff every vertex after the
first three has absolute plane distance (dot with the normal plus the plane
constant, divided by the normal magnitude) at most `tolerance`. -/
theorem coplanar_validation_characterized (vs : List Vertex) (tol : ℝ) :
    (vs.length ≤ 3 → validate_coplanar_vertices vs tol = true) ∧
    (∀ v1 v2 v3 rest, vs = v1 :: v2 :: v3 :: rest → rest ≠ [] →
      (cross_product
          ⟨v2.position.x - v1.position.x, v2.position.y - v1.position.y,
           v2.position.z - v1.position.z⟩
          ⟨v3.position.x - v1.position.x, v3.position.y - v1.position.y,
           v3.position.z - v1.position.z⟩ = (⟨0, 0, 0⟩ : Vector) →
        validate_coplanar_vertices vs tol = true) ∧
      (cross_product
          ⟨v2.position.x - v1.position.x, v2.position.y - v1.position.y,
           v2.position.z - v1.position.z⟩
          ⟨v3.position.x - v1.position.x, v3.position.y - v1.position.y,
           v3.position.z - v1.position.z⟩ ≠ (⟨0, 0, 0⟩ : Vector) →
        (validate_coplanar_vertices vs tol = true ↔
          ∀ v ∈ rest,
            |(cross_product
                ⟨v2.position.x - v1.position.x, v2.position.y - v1.position.y,
                 v2.position.z - v1.position.z⟩
                ⟨v3.position.x - v1.position.x, v3.position.y - v1.position.y,
                 v3.position.z - v1.position.z⟩).x * v.position.x +
             (cross_product
                ⟨v2.position.x - v1.position.x, v2.position.y - v1.position.y,
                 v2.position.z - v1.position.z⟩
                ⟨v3.position.x - v1.position.x, v3.position.y - v1.position.y,
                 v3.position.z - v1.position.z⟩).y * v.position.y +
             (cross_product
                ⟨v2.position.x - v1.position.x, v2.position.y - v1.position.y,
                 v2.position.z - v1.position.z⟩
                ⟨v3.position.x - v1.position.x, v3.position.y - v1.position.y,
                 v3.position.z - v1.position.z⟩).z * v.position.z +
             -((cross_product
                  ⟨v2.position.x - v1.position.x, v2.position.y - v1.position.y,
                   v2.position.z - v1.position.z⟩
                  ⟨v3.position.x - v1.position.x, v3.position.y - v1.position.y,
                   v3.position.z - v1.position.z⟩).x * v1.position.x +
               (cross_product
                  ⟨v2.position.x - v1.position.x, v2.position.y - v1.position.y,
                   v2.position.z - v1.position.z⟩
                  ⟨v3.position.x - v1.position.x, v3.position.y - v1.position.y,
                   v3.position.z - v1.position.z⟩).y * v1.position.y +
               (cross_product
                  ⟨v2.position.x - v1.position.x, v2.position.y - v1.position.y,
                   v2.position.z - v1.position.z⟩
                  ⟨v3.position.x - v1.position.x, v3.position.y - v1.position.y,
                   v3.position.z - v1.position.z⟩).z * v1.position.z)| /
              Real.sqrt
                ((cross_product
                    ⟨v2.position.x - v1.position.x, v2.position.y - v1.position.y,
                     v2.position.z - v1.position.z⟩
                    ⟨v3.position.x - v1.position.x, v3.position.y - v1.position.y,
                     v3.position.z - v1.position.z⟩).x *
                  (cross_product
                    ⟨v2.position.x - v1.position.x, v2.position.y - v1.position.y,
                     v2.position.z - v1.position.z⟩
                    ⟨v3.position.x - v1.position.x, v3.position.y - v1.position.y,
                     v3.position.z - v1.position.z⟩).x +
                 (cross_product
                    ⟨v2.position.x - v1.position.x, v2.position.y - v1.position.y,
                     v2.position.z - v1.position.z⟩
                    ⟨v3.position.x - v1.position.x, v3.position.y - v1.position.y,
                     v3.position.z - v1.position.z⟩).y *
                  (cross_product
                    ⟨v2.position.x - v1.position.x, v2.position.y - v1.position.y,
                     v2.position.z - v1.position.z⟩
                    ⟨v3.position.x - v1.position.x, v3.position.y - v1.position.y,
                     v3.position.z - v1.position.z⟩).y +
                 (cross_product
                    ⟨v2.position.x - v1.position.x, v2.position.y - v1.position.y,
                     v2.position.z - v1.position.z⟩
                    ⟨v3.position.x - v1.position.x, v3.position.y - v1.position.y,
                     v3.position.z - v1.position.z⟩).z *
                  (cross_product
                    ⟨v2.position.x - v1.position.x, v2.position.y - v1.position.y,
                     v2.position.z - v1.position.z⟩
                    ⟨v3.position.x - v1.position.x, v3.position.y - v1.position.y,
                     v3.position.z - v1.position.z⟩).z) ≤ tol))) := by
  constructor
  · intro hlen
    unfold validate_coplanar_vertices
    rw [if_pos hlen]
  · rintro v1 v2 v3 rest rfl hrest
    have hlen : ¬ (v1 :: v2 :: v3 :: rest).length ≤ 3 := by
      have : rest.length ≠ 0 := by simpa using hrest
      simp only [List.length_cons]
      omega
    constructor
    · intro hzero
      unfold validate_coplanar_vertices
      rw [if_neg hlen]
      have hx := congrArg Vector.x hzero
      have hy := congrArg Vector.y hzero
      have hz := congrArg Vector.z hzero
      simp only [cross_product] at hx hy hz ⊢
      rw [if_pos ⟨hx, hy, hz⟩]
    · intro hnz
      unfold validate_coplanar_vertices
      rw [if_neg hlen]
      have hnz1 : ¬ ((cross_product
          ⟨v2.position.x - v1.position.x, v2.position.y - v1.position.y,
           v2.position.z - v1.position.z⟩
          ⟨v3.position.x - v1.position.x, v3.position.y - v1.position.y,
           v3.position.z - v1.position.z⟩).x = 0 ∧
        (cross_product
          ⟨v2.position.x - v1.position.x, v2.position.y - v1.position.y,
           v2.position.z - v1.position.z⟩
          ⟨v3.position.x - v1.position.x, v3.position.y - v1.position.y,
           v3.position.z - v1.position.z⟩).y = 0 ∧
        (cross_product
          ⟨v2.position.x - v1.position.x, v2.position.y - v1.position.y,
           v2.position.z - v1.position.z⟩
          ⟨v3.position.x - v1.position.x, v3.position.y - v1.position.y,
           v3.position.z - v1.position.z⟩).z = 0) := by
        intro hcomp
        apply hnz
        cases hc : cross_product
          ⟨v2.position.x - v1.position.x, v2.position.y - v1.position.y,
           v2.position.z - v1.position.z⟩
          ⟨v3.position.x - v1.position.x, v3.position.y - v1.position.y,
           v3.position.z - v1.position.z⟩ with
        | mk nx ny nz =>
          rw [hc] at hcomp
          obtain ⟨h1, h2, h3⟩ := hcomp
          simp only at h1 h2 h3
          rw [h1, h2, h3]
      simp only [cross_product] at hnz1 ⊢
      rw [if_neg hnz1]
      rw [List.all_eq_true]
      constructor
      · intro h v hv
        have := h v hv
        rw [guard_false_true_iff, not_lt] at this
        simpa [cross_product] using this
      · intro h v hv
        rw [guard_false_true_iff, not_lt]
        simpa [cross_product] using h v hv

/-- C6 (witness): the four unit-square corners in the `z = 0` plane pass the
coplanarity check at tolerance 0, via the non-zero-normal branch of the
characterization. -/
theorem coplanar_validation_characterized_witness :
    validate_coplanar_vertices
      [⟨0, ⟨0, 0, 0⟩⟩, ⟨1, ⟨1, 0, 0⟩⟩, ⟨2, ⟨0, 1, 0⟩⟩, ⟨4, ⟨1, 1, 0⟩⟩] 0 = true := by
  have h := (coplanar_validation_characterized
      [⟨0, ⟨0, 0, 0⟩⟩, ⟨1, ⟨1, 0, 0⟩⟩, ⟨2, ⟨0, 1, 0⟩⟩, ⟨4, ⟨1, 1, 0⟩⟩] 0).2
      ⟨0, ⟨0, 0, 0⟩⟩ ⟨1, ⟨1, 0, 0⟩⟩ ⟨2, ⟨0, 1, 0⟩⟩ [⟨4, ⟨1, 1, 0⟩⟩] rfl (by simp)
  refine (h.2 ?_).mpr ?_
  · intro hc
    have := congrArg Vector.z hc
    norm_num [cross_product] at this
  · intro v hv
    rw [List.mem_singleton] at hv
    subst hv
    norm_num [cross_product, Real.sqrt_one]

/-- C7: characterization of `validate_colinear_vertices`.  Lists of at most 2
vertices always pass; for longer lists, when the first two vertices coincide
within `precision` (squared comparison) the check passes iff every vertex lies
within `precision` of the first vertex (squared distances), and otherwise it
passes iff every vertex after the first two has a cross product with the line
direction of squared magnitude at most `precision²`. -/
theorem colinear_validation_characterized (vs : List Vertex) (prec : ℝ) :
    (vs.length ≤ 2 → validate_colinear_vertices vs prec = true) ∧
    (∀ v1 v2 rest, vs = v1 :: v2 :: rest → rest ≠ [] →
      ((v2.position.x - v1.position.x) * (v2.position.x - v1.position.x) +
       (v2.position.y - v1.position.y) * (v2.position.y - v1.position.y) +
       (v2.position.z - v1.position.z) * (v2.position.z - v1.position.z) ≤
         prec * prec →
        (validate_colinear_vertices vs prec = true ↔
          ∀ v ∈ vs,
            (v.position.x - v1.position.x) * (v.position.x - v1.position.x) +
            (v.position.y - v1.position.y) * (v.position.y - v1.position.y) +
            (v.position.z - v1.position.z) * (v.position.z - v1.position.z) ≤
              prec * prec)) ∧
      ((v2.position.x - v1.position.x) * (v2.position.x - v1.position.x) +
       (v2.position.y - v1.position.y) * (v2.position.y - v1.position.y) +
       (v2.position.z - v1.position.z) * (v2.position.z - v1.position.z) >
         prec * prec →
        (validate_colinear_vertices vs prec = true ↔
          ∀ v ∈ rest,
            (cross_product
               ⟨v2.position.x - v1.position.x, v2.position.y - v1.position.y,
                v2.position.z - v1.position.z⟩
               ⟨v.position.x - v1.position.x, v.position.y - v1.position.y,
                v.position.z - v1.position.z⟩).x *
            (cross_product
               ⟨v2.position.x - v1.position.x, v2.position.y - v1.position.y,
                v2.position.z - v1.position.z⟩
               ⟨v.position.x - v1.position.x, v.position.y - v1.position.y,
                v.position.z - v1.position.z⟩).x +
            (cross_product
               ⟨v2.position.x - v1.position.x, v2.position.y - v1.position.y,
                v2.position.z - v1.position.z⟩
               ⟨v.position.x - v1.position.x, v.position.y - v1.position.y,
                v.position.z - v1.position.z⟩).y *
            (cross_product
               ⟨v2.position.x - v1.position.x, v2.position.y - v1.position.y,
                v2.position.z - v1.position.z⟩
               ⟨v.position.x - v1.position.x, v.position.y - v1.position.y,
                v.position.z - v1.position.z⟩).y +
            (cross_product
               ⟨v2.position.x - v1.position.x, v2.position.y - v1.position.y,
                v2.position.z - v1.position.z⟩
               ⟨v.position.x - v1.position.x, v.position.y - v1.position.y,
                v.position.z - v1.position.z⟩).z *
            (cross_product
               ⟨v2.position.x - v1.position.x, v2.position.y - v1.position.y,
                v2.position.z - v1.position.z⟩
               ⟨v.position.x - v1.position.x, v.position.y - v1.position.y,
                v.position.z - v1.position.z⟩).z ≤ prec * prec))) := by
  constructor
  · intro hlen
    unfold validate_colinear_vertices
    rw [if_pos hlen]
  · rintro v1 v2 rest rfl hrest
    have hlen : ¬ (v1 :: v2 :: rest).length ≤ 2 := by
      have : rest.length ≠ 0 := by simpa using hrest
      simp only [List.length_cons]
      omega
    constructor
    · intro hcoin
      unfold validate_colinear_vertices
      rw [if_neg hlen]
      simp only [cross_product]
      rw [if_pos hcoin]
      rw [List.all_eq_true]
      constructor
      · intro h v hv
        rcases List.mem_cons.mp hv with rfl | hv2
        · have hsq : (0:ℝ) ≤ prec * prec := mul_self_nonneg prec
          have : (v.position.x - v.position.x) * (v.position.x - v.position.x) +
              (v.position.y - v.position.y) * (v.position.y - v.position.y) +
              (v.position.z - v.position.z) * (v.position.z - v.position.z) = 0 := by
            ring
          rw [this]
          exact hsq
        · have := h v hv2
          rw [guard_false_true_iff, not_lt] at this
          exact this
      · intro h v hv
        rw [guard_false_true_iff, not_lt]
        exact h v (List.mem_cons_of_mem v1 hv)
    · intro hfar
      unfold validate_colinear_vertices
      rw [if_neg hlen]
      simp only [cross_product]
      rw [if_neg (not_le.mpr hfar)]
      rw [List.all_eq_true]
      constructor
      · intro h v hv
        have := h v hv
        rw [guard_false_true_iff, not_lt] at this
        simpa [cross_product] using this
      · intro h v hv
        rw [guard_false_true_iff, not_lt]
        simpa [cross_product] using h v hv

/-- C7 (witness): three points on the x-axis pass the collinearity check at
precision 0 via the main branch of the characterization. -/
theorem colinear_validation_characterized_witness :
    validate_colinear_vertices
      [⟨0, ⟨0, 0, 0⟩⟩, ⟨1, ⟨1, 0, 0⟩⟩, ⟨2, ⟨2, 0, 0⟩⟩] 0 = true := by
  have h := (colinear_validation_characterized
      [⟨0, ⟨0, 0, 0⟩⟩, ⟨1, ⟨1, 0, 0⟩⟩, ⟨2, ⟨2, 0, 0⟩⟩] 0).2
      ⟨0, ⟨0, 0, 0⟩⟩ ⟨1, ⟨1, 0, 0⟩⟩ [⟨2, ⟨2, 0, 0⟩⟩] rfl (by simp)
  refine (h.2 (by norm_num)).mpr ?_
  intro v hv
  rw [List.mem_singleton] at hv
  subst hv
  norm_num [cross_product]

/-- C5: one relaxation step of a distance constraint.  At nonzero current
distance both points move by `0.5 * damping * (required/current - 1)` times
the current vector, in opposite directions; at zero current distance only
point B is nudged, by `0.1` in `x`, and point A is untouched. -/
theorem relax_distance_spec (cfg : SolverConfig) (c : DistanceConstraint)
    (g : GeometryState) (pa pb : Point)
    (ha : g.get_point c.point_a_idx = some pa)
    (hb : g.get_point c.point_b_idx = some pb) :
    (Real.sqrt ((measure_vector pa pb).x * (measure_vector pa pb).x +
        (measure_vector pa pb).y * (measure_vector pa pb).y +
        (measure_vector pa pb).z * (measure_vector pa pb).z) ≠ 0 →
      relax_distance_constraint cfg g c =
        some ((g.set_point c.point_a_idx
            ⟨pa.x - 0.5 * cfg.damping *
                (c.required_distance /
                  Real.sqrt ((measure_vector pa pb).x * (measure_vector pa pb).x +
                    (measure_vector pa pb).y * (measure_vector pa pb).y +
                    (measure_vector pa pb).z * (measure_vector pa pb).z) - 1) *
                (measure_vector pa pb).x,
              pa.y - 0.5 * cfg.damping *
                (c.required_distance /
                  Real.sqrt ((measure_vector pa pb).x * (measure_vector pa pb).x +
                    (measure_vector pa pb).y * (measure_vector pa pb).y +
                    (measure_vector pa pb).z * (measure_vector pa pb).z) - 1) *
                (measure_vector pa pb).y,
              pa.z - 0.5 * cfg.damping *
                (c.required_distance /
                  Real.sqrt ((measure_vector pa pb).x * (measure_vector pa pb).x +
                    (measure_vector pa pb).y * (measure_vector pa pb).y +
                    (measure_vector pa pb).z * (measure_vector pa pb).z) - 1) *
                (measure_vector pa pb).z⟩).set_point c.point_b_idx
            ⟨pb.x + 0.5 * cfg.damping *
                (c.required_distance /
                  Real.sqrt ((measure_vector pa pb).x * (measure_vector pa pb).x +
                    (measure_vector pa pb).y * (measure_vector pa pb).y +
                    (measure_vector pa pb).z * (measure_vector pa pb).z) - 1) *
                (measure_vector pa pb).x,
              pb.y + 0.5 * cfg.damping *
                (c.required_distance /
                  Real.sqrt ((measure_vector pa pb).x * (measure_vector pa pb).x +
                    (measure_vector pa pb).y * (measure_vector pa pb).y +
                    (measure_vector pa pb).z * (measure_vector pa pb).z) - 1) *
                (measure_vector pa pb).y,
              pb.z + 0.5 * cfg.damping *
                (c.required_distance /
                  Real.sqrt ((measure_vector pa pb).x * (measure_vector pa pb).x +
                    (measure_vector pa pb).y * (measure_vector pa pb).y +
                    (measure_vector pa pb).z * (measure_vector pa pb).z) - 1) *
                (measure_vector pa pb).z⟩)) ∧
    (Real.sqrt ((measure_vector pa pb).x * (measure_vector pa pb).x +
        (measure_vector pa pb).y * (measure_vector pa pb).y +
        (measure_vector pa pb).z * (measure_vector pa pb).z) = 0 →
      relax_distance_constraint cfg g c =
        some (g.set_point c.point_b_idx ⟨pb.x + 0.1, pb.y, pb.z⟩)) := by
  constructor
  · intro hcd
    have hab : c.point_a_idx ≠ c.point_b_idx := by
      intro he
      rw [he, hb] at ha
      have hpp : pb = pa := by injection ha
      subst hpp
      apply hcd
      have hz : (measure_vector pb pb).x * (measure_vector pb pb).x +
          (measure_vector pb pb).y * (measure_vector pb pb).y +
          (measure_vector pb pb).z * (measure_vector pb pb).z = 0 := by
        simp [measure_vector]
      rw [hz, Real.sqrt_zero]
    simp only [relax_distance_constraint, ha, hb]
    rw [if_neg hcd]
    have hb2 : ((g.set_point c.point_a_idx
        ⟨pa.x - (measure_vector pa pb).x *
            (c.required_distance /
              Real.sqrt ((measure_vector pa pb).x * (measure_vector pa pb).x +
                (measure_vector pa pb).y * (measure_vector pa pb).y +
                (measure_vector pa pb).z * (measure_vector pa pb).z) - 1) *
            cfg.damping * 0.5,
          pa.y - (measure_vector pa pb).y *
            (c.required_distance /
              Real.sqrt ((measure_vector pa pb).x * (measure_vector pa pb).x +
                (measure_vector pa pb).y * (measure_vector pa pb).y +
                (measure_vector pa pb).z * (measure_vector pa pb).z) - 1) *
            cfg.damping * 0.5,
          pa.z - (measure_vector pa pb).z *
            (c.required_distance /
              Real.sqrt ((measure_vector pa pb).x * (measure_vector pa pb).x +
                (measure_vector pa pb).y * (measure_vector pa pb).y +
                (measure_vector pa pb).z * (measure_vector pa pb).z) - 1) *
            cfg.damping * 0.5⟩).get_point c.point_b_idx) = some pb := by
      rw [GeometryState.get_point, GeometryState.set_point]
      rw [List.get?_set_ne _ _ hab]
      exact hb
    rw [hb2]
    have hpa : ∀ q1 q2 : Point, q1 = q2 →
        ∀ r1 r2 : Point, r1 = r2 →
        (g.set_point c.point_a_idx q1).set_point c.point_b_idx r1 =
          (g.set_point c.point_a_idx q2).set_point c.point_b_idx r2 := by
      rintro q1 q2 rfl r1 r2 rfl
      rfl
    rw [Option.some_inj]
    apply hpa
    · refine Point.mk.injEq .. ▸ ?_
      exact ⟨by ring, by ring, by ring⟩
    · refine Point.mk.injEq .. ▸ ?_
      exact ⟨by ring, by ring, by ring⟩
  · intro hcd
    simp only [relax_distance_constraint, ha, hb]
    rw [if_pos hcd]

/-- C5 (witness): relaxing a distance-2 constraint between `(0,0,0)` and
`(1,0,0)` with damping `0.5` moves the points to `(-1/4,0,0)` and
`(5/4,0,0)`. -/
theorem relax_distance_spec_witness :
    relax_distance_constraint ⟨100, 1/1000000, 1/2⟩
      ⟨[⟨0, 0, 0⟩, ⟨1, 0, 0⟩], []⟩ ⟨0, 1, 2, 1⟩ =
      some ⟨[⟨-(1/4), 0, 0⟩, ⟨5/4, 0, 0⟩], []⟩ := by
  have h := (relax_distance_spec ⟨100, 1/1000000, 1/2⟩ ⟨0, 1, 2, 1⟩
      ⟨[⟨0, 0, 0⟩, ⟨1, 0, 0⟩], []⟩ ⟨0, 0, 0⟩ ⟨1, 0, 0⟩ rfl rfl).1 (by
        norm_num [measure_vector, Real.sqrt_one])
  rw [h]
  norm_num [measure_vector, GeometryState.set_point, Real.sqrt_one]

/-- The degree view of an adjacency map: each vertex paired with the length
of its connection list. -/
def conn_degrees (conns : List (Nat × List Nat)) : List (Nat × Nat) :=
  conns.map fun kv => (kv.1, kv.2.length)

/-- Looking a key up in the degree view returns the length of its
connection list. -/
theorem lookup_conn_degrees (m : List (Nat × List Nat)) (k : Nat) :
    (conn_degrees m).lookup k = (m.lookup k).map List.length := by
  induction m with
  | nil => rfl
  | cons kv rest ih =>
    cases kv with
    | mk a l =>
      by_cases h : k = a
      · subst h
        simp [conn_degrees, List.lookup]
      · have hne : (k == a) = false := beq_false_of_ne h
        simp only [conn_degrees, List.map_cons, List.lookup, hne]
        exact ih

/-- Bumping a count in the degree view matches appending one connection in
the adjacency map. -/
theorem bump_count_conn_degrees (m : List (Nat × List Nat)) (k v : Nat) :
    bump_count (conn_degrees m) k = conn_degrees (add_connection m k v) := by
  unfold bump_count add_connection
  rw [lookup_conn_degrees]
  by_cases h : (m.lookup k).isSome
  · rw [if_pos (by rwa [Option.isSome_map']), if_pos h]
    unfold conn_degrees
    rw [List.map_map, List.map_map]
    have hfun2 : ∀ kv : Nat × List Nat,
        ((fun kv : Nat × Nat => if kv.1 = k then (kv.1, kv.2 + 1) else kv) ∘
          fun kv : Nat × List Nat => (kv.1, kv.2.length)) kv =
        ((fun kv : Nat × List Nat => (kv.1, kv.2.length)) ∘
          fun kv : Nat × List Nat => if kv.1 = k then (kv.1, kv.2 ++ [v]) else kv) kv := by
      intro kv
      by_cases hk : kv.1 = k <;> simp [hk]
    rw [funext hfun2]
  · rw [if_neg (by rwa [Option.isSome_map']), if_neg h]
    unfold conn_degrees
    rw [List.map_append]
    rfl

/-- One `connectivity_step` preserves the invariant that `vertex_counts` is
the degree view of `vertex_connections`. -/
theorem connectivity_step_degrees (segs : List (Nat × Segment))
    (acc acc1 : List (Nat × Nat) × List (Nat × List Nat)) (sid : Nat)
    (hinv : acc.1 = conn_degrees acc.2)
    (hstep : connectivity_step segs acc sid = some acc1) :
    acc1.1 = conn_degrees acc1.2 := by
  unfold connectivity_step at hstep
  cases hlook : segs.lookup sid with
  | none => rw [hlook] at hstep; exact absurd hstep (by simp)
  | some seg =>
    rw [hlook] at hstep
    simp only [Option.some_inj] at hstep
    subst hstep
    simp only [hinv]
    rw [bump_count_conn_degrees _ _ seg.vertices.2,
      bump_count_conn_degrees _ _ seg.vertices.1]

/-- Along any successful `build_connectivity` fold, `vertex_counts` is the
degree view of `vertex_connections`. -/
theorem build_connectivity_degrees (segs : List (Nat × Segment)) :
    ∀ (ss : List Nat) (acc : List (Nat × Nat) × List (Nat × List Nat)),
      acc.1 = conn_degrees acc.2 →
      ∀ out, ss.foldlM (connectivity_step segs) acc = some out →
        out.1 = conn_degrees out.2 := by
  intro ss
  induction ss with
  | nil =>
    intro acc hinv out hfold
    simp only [List.foldlM, Option.pure_def, Option.some_inj] at hfold
    exact hfold ▸ hinv
  | cons sid rest ih =>
    intro acc hinv out hfold
    rw [List.foldlM_cons] at hfold
    cases hstep : connectivity_step segs acc sid with
    | none => rw [hstep] at hfold; exact absurd hfold (by simp)
    | some acc1 =>
      rw [hstep] at hfold
      exact ih acc1 (connectivity_step_degrees segs acc acc1 sid hinv hstep) out
        (by simpa using hfold)

/-- C9: a polygon whose connectivity graph gives some vertex a degree other
than 2 is rejected by triangulation with an empty result (the early
`valid_loop` return; no vertex position is ever read, so no panic can
occur). -/
theorem triangulation_rejects_degree_ne_two (poly : Polygon)
    (segs : List (Nat × Segment)) (verts : List (Nat × Vertex))
    (counts : List (Nat × Nat)) (conns : List (Nat × List Nat))
    (hbuild : build_connectivity poly.segments segs = some (counts, conns))
    (v : Nat) (nbrs : List Nat) (hmem : (v, nbrs) ∈ conns) (hdeg : nbrs.length ≠ 2) :
    triangulate_polygon_for_rendering poly segs verts = some [] := by
  have hcounts : counts = conn_degrees conns :=
    build_connectivity_degrees segs poly.segments ([], []) rfl (counts, conns) hbuild
  have hallf : (counts.all fun kv => kv.2 == 2) = false := by
    rw [hcounts]
    rw [List.all_eq_false]
    refine ⟨(v, nbrs.length), List.mem_map_of_mem _ hmem, ?_⟩
    simpa using hdeg
  simp [triangulate_polygon_for_rendering, hbuild, hallf]

/-- C9 (witness): the spec's malformed example — a triangle `0-1-2` plus an
extra segment `1-3`, so vertex 1 has degree 3 — triangulates to the empty
result. -/
theorem triangulation_rejects_degree_ne_two_witness :
    triangulate_polygon_for_rendering { id := 100, segments := [10, 11, 12, 13] }
      [(10, { id := 10, vertices := (0, 1) }), (11, { id := 11, vertices := (1, 2) }),
       (12, { id := 12, vertices := (0, 2) }), (13, { id := 13, vertices := (1, 3) })]
      [(0, ⟨0, ⟨0, 0, 0⟩⟩), (1, ⟨1, ⟨1, 0, 0⟩⟩), (2, ⟨2, ⟨0, 1, 0⟩⟩),
       (3, ⟨3, ⟨2, 2, 0⟩⟩)] = some [] := by
  refine triangulation_rejects_degree_ne_two _ _ _
    [(0, 2), (1, 3), (2, 2), (3, 1)]
    [(0, [1, 2]), (1, [0, 2, 3]), (2, [1, 0]), (3, [1])]
    (by rfl) 1 [0, 2, 3] (by decide) (by decide)

/-- C10: triangulation is not total on inputs passing its own degree-2 check.
For the bigon — two distinct segments joining the same two vertices — every
touched vertex has degree exactly 2 so `valid_loop` passes, the walk yields
only the two vertex positions, and the function then panics indexing the
third ordered vertex (modelled as `none`) instead of returning an empty
result. -/
theorem triangulation_bigon_panics :
    build_connectivity [10, 11]
        [(10, { id := 10, vertices := (0, 1) }), (11, { id := 11, vertices := (0, 1) })] =
      some ([(0, 2), (1, 2)], [(0, [1, 1]), (1, [0, 0])]) ∧
    (([((0 : Nat), (2 : Nat)), (1, 2)].all fun kv => kv.2 == 2) = true) ∧
    walk_loop [(0, ⟨0, ⟨0, 0, 0⟩⟩), (1, ⟨1, ⟨1, 0, 0⟩⟩)]
        [(0, [1, 1]), (1, [0, 0])] 2 3 0 [] [] =
      some [⟨0, 0, 0⟩, ⟨1, 0, 0⟩] ∧
    triangulate_polygon_for_rendering { id := 100, segments := [10, 11] }
        [(10, { id := 10, vertices := (0, 1) }), (11, { id := 11, vertices := (0, 1) })]
        [(0, ⟨0, ⟨0, 0, 0⟩⟩), (1, ⟨1, ⟨1, 0, 0⟩⟩)] = none := by
  refine ⟨rfl, rfl, rfl, rfl⟩

/-- Pointwise extensionality for `Point`. -/
theorem point_ext (p q : Point) (hx : p.x = q.x) (hy : p.y = q.y) (hz : p.z = q.z) :
    p = q := by
  cases p
  cases q
  dsimp only at hx hy hz
  rw [hx, hy, hz]

/-- The symmetric two-point geometry along the initial direction `b - a`,
with the points at parameter distance `t` apart (both endpoints move
symmetrically about the fixed midpoint, as the relaxation step does). -/
noncomputable def line_state (a b : Point) (t : ℝ) : GeometryState :=
  { points :=
      [⟨a.x - (t - 1) / 2 * (b.x - a.x), a.y - (t - 1) / 2 * (b.y - a.y),
        a.z - (t - 1) / 2 * (b.z - a.z)⟩,
       ⟨b.x + (t - 1) / 2 * (b.x - a.x), b.y + (t - 1) / 2 * (b.y - a.y),
        b.z + (t - 1) / 2 * (b.z - a.z)⟩],
    vectors := [] }

/-- At parameter 1 the symmetric state is the original pair of points. -/
theorem line_state_one (a b : Point) :
    line_state a b 1 = { points := [a, b], vectors := [] } := by
  unfold line_state
  have h1 : (⟨a.x - (1 - 1) / 2 * (b.x - a.x), a.y - (1 - 1) / 2 * (b.y - a.y),
      a.z - (1 - 1) / 2 * (b.z - a.z)⟩ : Point) = a :=
    point_ext _ _ (by ring) (by ring) (by ring)
  have h2 : (⟨b.x + (1 - 1) / 2 * (b.x - a.x), b.y + (1 - 1) / 2 * (b.y - a.y),
      b.z + (1 - 1) / 2 * (b.z - a.z)⟩ : Point) = b :=
    point_ext _ _ (by ring) (by ring) (by ring)
  rw [h1, h2]

/-- The squared length of the vector between the two symmetric points is
`t * t` when the initial direction is unit length. -/
theorem line_state_sq (a b : Point) (t : ℝ)
    (hu : (b.x - a.x) * (b.x - a.x) + (b.y - a.y) * (b.y - a.y) +
      (b.z - a.z) * (b.z - a.z) = 1) :
    (measure_vector
        ⟨a.x - (t - 1) / 2 * (b.x - a.x), a.y - (t - 1) / 2 * (b.y - a.y),
         a.z - (t - 1) / 2 * (b.z - a.z)⟩
        ⟨b.x + (t - 1) / 2 * (b.x - a.x), b.y + (t - 1) / 2 * (b.y - a.y),
         b.z + (t - 1) / 2 * (b.z - a.z)⟩).x *
      (measure_vector
        ⟨a.x - (t - 1) / 2 * (b.x - a.x), a.y - (t - 1) / 2 * (b.y - a.y),
         a.z - (t - 1) / 2 * (b.z - a.z)⟩
        ⟨b.x + (t - 1) / 2 * (b.x - a.x), b.y + (t - 1) / 2 * (b.y - a.y),
         b.z + (t - 1) / 2 * (b.z - a.z)⟩).x +
    (measure_vector
        ⟨a.x - (t - 1) / 2 * (b.x - a.x), a.y - (t - 1) / 2 * (b.y - a.y),
         a.z - (t - 1) / 2 * (b.z - a.z)⟩
        ⟨b.x + (t - 1) / 2 * (b.x - a.x), b.y + (t - 1) / 2 * (b.y - a.y),
         b.z + (t - 1) / 2 * (b.z - a.z)⟩).y *
      (measure_vector
        ⟨a.x - (t - 1) / 2 * (b.x - a.x), a.y - (t - 1) / 2 * (b.y - a.y),
         a.z - (t - 1) / 2 * (b.z - a.z)⟩
        ⟨b.x + (t - 1) / 2 * (b.x - a.x), b.y + (t - 1) / 2 * (b.y - a.y),
         b.z + (t - 1) / 2 * (b.z - a.z)⟩).y +
    (measure_vector
        ⟨a.x - (t - 1) / 2 * (b.x - a.x), a.y - (t - 1) / 2 * (b.y - a.y),
         a.z - (t - 1) / 2 * (b.z - a.z)⟩
        ⟨b.x + (t - 1) / 2 * (b.x - a.x), b.y + (t - 1) / 2 * (b.y - a.y),
         b.z + (t - 1) / 2 * (b.z - a.z)⟩).z *
      (measure_vector
        ⟨a.x - (t - 1) / 2 * (b.x - a.x), a.y - (t - 1) / 2 * (b.y - a.y),
         a.z - (t - 1) / 2 * (b.z - a.z)⟩
        ⟨b.x + (t - 1) / 2 * (b.x - a.x), b.y + (t - 1) / 2 * (b.y - a.y),
         b.z + (t - 1) / 2 * (b.z - a.z)⟩).z = t * t := by
  simp only [measure_vector]
  linear_combination (t * t) * hu

/-- Residual evaluation on the symmetric state: the single distance
constraint (required distance 2) has residual `2 - t` for `1 ≤ t ≤ 2`. -/
theorem max_residual_line_state (a b : Point) (p : Nat) (t : ℝ)
    (hu : (b.x - a.x) * (b.x - a.x) + (b.y - a.y) * (b.y - a.y) +
      (b.z - a.z) * (b.z - a.z) = 1)
    (ht1 : 1 ≤ t) (ht2 : t ≤ 2) :
    max_residual_loop [ConstraintObj.distance
        { point_a_idx := 0, point_b_idx := 1, required_distance := 2, priority := p }]
      (line_state a b t) 0 = some (2 - t) := by
  have hA : (line_state a b t).get_point 0 = some ⟨a.x - (t - 1) / 2 * (b.x - a.x),
      a.y - (t - 1) / 2 * (b.y - a.y), a.z - (t - 1) / 2 * (b.z - a.z)⟩ := rfl
  have hB : (line_state a b t).get_point 1 = some ⟨b.x + (t - 1) / 2 * (b.x - a.x),
      b.y + (t - 1) / 2 * (b.y - a.y), b.z + (t - 1) / 2 * (b.z - a.z)⟩ := rfl
  simp only [max_residual_loop, ConstraintObj.residual, hA, hB]
  rw [line_state_sq a b t hu]
  rw [Real.sqrt_mul_self (by linarith : (0:ℝ) ≤ t)]
  have habs : |t - (2:ℝ)| = 2 - t := by
    rw [abs_sub_comm, abs_of_nonneg (by linarith)]
  rw [habs]
  rw [max_eq_right (by linarith : (0:ℝ) ≤ 2 - t)]

/-- Relaxation on the symmetric state: one step moves the parameter from `t`
to `t + damping * (2 - t)` for `1 ≤ t ≤ 2`. -/
theorem relax_line_state (a b : Point) (cfg : SolverConfig) (p : Nat) (t : ℝ)
    (hu : (b.x - a.x) * (b.x - a.x) + (b.y - a.y) * (b.y - a.y) +
      (b.z - a.z) * (b.z - a.z) = 1)
    (ht1 : 1 ≤ t) (ht2 : t ≤ 2) :
    relax_distance_constraint cfg (line_state a b t)
      { point_a_idx := 0, point_b_idx := 1, required_distance := 2, priority := p } =
      some (line_state a b (t + cfg.damping * (2 - t))) := by
  have hA : (line_state a b t).get_point 0 = some ⟨a.x - (t - 1) / 2 * (b.x - a.x),
      a.y - (t - 1) / 2 * (b.y - a.y), a.z - (t - 1) / 2 * (b.z - a.z)⟩ := rfl
  have hB : (line_state a b t).get_point 1 = some ⟨b.x + (t - 1) / 2 * (b.x - a.x),
      b.y + (t - 1) / 2 * (b.y - a.y), b.z + (t - 1) / 2 * (b.z - a.z)⟩ := rfl
  simp only [relax_distance_constraint, hA, hB]
  rw [line_state_sq a b t hu]
  rw [Real.sqrt_mul_self (by linarith : (0:ℝ) ≤ t)]
  rw [if_neg (by intro h; linarith : ¬ t = 0)]
  simp only [measure_vector, GeometryState.set_point, GeometryState.get_point, line_state,
    List.set_cons_zero, List.set_cons_succ, List.get?_cons_succ, List.get?_cons_zero,
    Option.some_inj]
  have ht0 : t ≠ 0 := by intro h; linarith
  refine GeometryState.mk.injEq .. ▸ ⟨?_, rfl⟩
  refine List.cons_eq_cons.mpr ⟨?_, List.cons_eq_cons.mpr ⟨?_, rfl⟩⟩
  · refine point_ext _ _ ?_ ?_ ?_ <;> field_simp <;> ring
  · refine point_ext _ _ ?_ ?_ ?_ <;> field_simp <;> ring

/-- `relax_constraints` with a single distance constraint is exactly one
relaxation step. -/
theorem relax_constraints_singleton (cfg : SolverConfig) (c : DistanceConstraint)
    (g : GeometryState) :
    relax_constraints cfg [ConstraintObj.distance c] g =
      relax_distance_constraint cfg g c := by
  simp only [relax_constraints, List.filterMap]
  cases hres : relax_distance_constraint cfg g c <;> simp [List.foldlM, hres]

/-- For damping in `[1/2, 1]`, once the residual `r` satisfies
`r < 1e-6 * 2 ^ n`, the iteration loop with `n + 1` remaining iterations
converges from the symmetric state at parameter `2 - r`. -/
theorem solve_loop_converges (a b : Point) (p : Nat) (d : ℝ)
    (hu : (b.x - a.x) * (b.x - a.x) + (b.y - a.y) * (b.y - a.y) +
      (b.z - a.z) * (b.z - a.z) = 1)
    (hd1 : 1/2 ≤ d) (hd2 : d ≤ 1) :
    ∀ (n k : Nat) (r : ℝ), 0 ≤ r → r ≤ 1 → r < 1e-6 * 2 ^ n →
      ∃ j, j ≤ k + n + 1 ∧
        solve_iterative_loop { max_iterations := 100, tolerance := 1e-6, damping := d }
          [ConstraintObj.distance
            { point_a_idx := 0, point_b_idx := 1, required_distance := 2, priority := p }]
          (n + 1) k (line_state a b (2 - r)) = some (SolverResult.Converged j) := by
  intro n
  induction n with
  | zero =>
    intro k r hr0 hr1 hrlt
    refine ⟨k + 1, by omega, ?_⟩
    have hres := max_residual_line_state a b p (2 - r) hu (by linarith) (by linarith)
    have h2r : (2 : ℝ) - (2 - r) = r := by ring
    rw [h2r] at hres
    have hc : r < 1e-6 := by
      rw [pow_zero, mul_one] at hrlt
      exact hrlt
    simp only [solve_iterative_loop, hres]
    rw [if_pos hc]
  | succ n ih =>
    intro k r hr0 hr1 hrlt
    have hres := max_residual_line_state a b p (2 - r) hu (by linarith) (by linarith)
    have h2r : (2 : ℝ) - (2 - r) = r := by ring
    rw [h2r] at hres
    by_cases hc : r < 1e-6
    · refine ⟨k + 1, by omega, ?_⟩
      simp only [solve_iterative_loop, hres]
      rw [if_pos hc]
    · have hrel0 := relax_line_state a b ⟨100, 1e-6, d⟩ p (2 - r) hu
        (by linarith) (by linarith)
      have harg : (2 - r) + (⟨100, 1e-6, d⟩ : SolverConfig).damping * (2 - (2 - r)) =
          2 - (1 - d) * r := by
        show (2 - r) + d * (2 - (2 - r)) = 2 - (1 - d) * r
        ring
      rw [harg] at hrel0
      have hrel : relax_constraints ⟨100, 1e-6, d⟩
          [ConstraintObj.distance
            { point_a_idx := 0, point_b_idx := 1, required_distance := 2, priority := p }]
          (line_state a b (2 - r)) = some (line_state a b (2 - (1 - d) * r)) := by
        rw [relax_constraints_singleton]
        exact hrel0
      have hr1n : (1 - d) * r ≤ 1 := by
        have := mul_le_mul (by linarith : 1 - d ≤ 1/2) hr1 hr0 (by norm_num)
        linarith
      have hltn : (1 - d) * r < 1e-6 * 2 ^ n := by
        have h1 : (1 - d) * r ≤ (1/2) * r :=
          mul_le_mul_of_nonneg_right (by linarith) hr0
        have h2 : r < 1e-6 * (2 ^ n * 2) := by
          rw [pow_succ] at hrlt
          exact hrlt
        linarith
      obtain ⟨j, hj, hloop⟩ := ih (k + 1) ((1 - d) * r)
        (mul_nonneg (by linarith) hr0) hr1n hltn
      refine ⟨j, by omega, ?_⟩
      simp only [solve_iterative_loop, hres]
      rw [if_neg hc]
      simp only [hrel]
      exact hloop

/-- C4 (amended): for every damping value in `[1/2, 1]` (the default is
`0.5`), a solver holding exactly one distance constraint between two points
initially 1.0 apart with required distance 2.0, with `max_iterations = 100`
and the default tolerance `1e-6`, returns `Converged` within 100
iterations. -/
theorem solver_one_distance_constraint_converges (d : ℝ)
    (hd1 : 1/2 ≤ d) (hd2 : d ≤ 1) (a b : Point) (p : Nat)
    (hdist : Real.sqrt ((b.x - a.x) * (b.x - a.x) + (b.y - a.y) * (b.y - a.y) +
      (b.z - a.z) * (b.z - a.z)) = 1) :
    ∃ j, j ≤ 100 ∧
      ConstraintSolver.solve
        { geometry := { points := [a, b], vectors := [] },
          constraints := [ConstraintObj.distance
            { point_a_idx := 0, point_b_idx := 1, required_distance := 2, priority := p }],
          config := { max_iterations := 100, tolerance := 1e-6, damping := d } } =
        some (SolverResult.Converged j) := by
  have hS0 : (0:ℝ) ≤ (b.x - a.x) * (b.x - a.x) + (b.y - a.y) * (b.y - a.y) +
      (b.z - a.z) * (b.z - a.z) := by
    nlinarith [mul_self_nonneg (b.x - a.x), mul_self_nonneg (b.y - a.y),
      mul_self_nonneg (b.z - a.z)]
  have hu : (b.x - a.x) * (b.x - a.x) + (b.y - a.y) * (b.y - a.y) +
      (b.z - a.z) * (b.z - a.z) = 1 := by
    have hsq := Real.sq_sqrt hS0
    rw [hdist] at hsq
    simpa using hsq.symm
  obtain ⟨j, hj, hloop⟩ := solve_loop_converges a b p d hu hd1 hd2 99 0 1
    (by norm_num) le_rfl (by norm_num)
  refine ⟨j, by omega, ?_⟩
  have hstart : line_state a b (2 - 1) = { points := [a, b], vectors := [] } := by
    rw [show (2:ℝ) - 1 = 1 by norm_num, line_state_one]
  rw [hstart] at hloop
  simp only [ConstraintSolver.solve, solve_iterative, sort_by_priority, insert_by_priority,
    List.isEmpty_cons, Bool.false_eq_true, if_false]
  show solve_iterative_loop _ _ 100 0 _ = _
  rw [show (100 : Nat) = 99 + 1 from rfl]
  exact hloop

/-- C4 (witness): with the default damping `0.5` and the canonical points
`(0,0,0)` and `(1,0,0)` (distance 1), the solver converges. -/
theorem solver_one_distance_constraint_converges_witness :
    ∃ j, j ≤ 100 ∧
      ConstraintSolver.solve
        { geometry := { points := [⟨0, 0, 0⟩, ⟨1, 0, 0⟩], vectors := [] },
          constraints := [ConstraintObj.distance
            { point_a_idx := 0, point_b_idx := 1, required_distance := 2, priority := 1 }],
          config := { max_iterations := 100, tolerance := 1e-6, damping := 1/2 } } =
        some (SolverResult.Converged j) :=
  solver_one_distance_constraint_converges (1/2) le_rfl (by norm_num)
    ⟨0, 0, 0⟩ ⟨1, 0, 0⟩ 1
    (by norm_num [Real.sqrt_one])

/-- With damping `1/128` the loop never meets the tolerance within its
remaining fuel: starting at iteration `k` (with `k + n = 100`) from residual
`(127/128) ^ k`, it exhausts all iterations. -/
theorem solve_loop_stuck (a b : Point) (p : Nat)
    (hu : (b.x - a.x) * (b.x - a.x) + (b.y - a.y) * (b.y - a.y) +
      (b.z - a.z) * (b.z - a.z) = 1) :
    ∀ (n k : Nat), k + n = 100 →
      solve_iterative_loop { max_iterations := 100, tolerance := 1e-6, damping := 1/128 }
        [ConstraintObj.distance
          { point_a_idx := 0, point_b_idx := 1, required_distance := 2, priority := p }]
        n k (line_state a b (2 - (127/128) ^ k)) =
        some SolverResult.MaxIterationsReached := by
  intro n
  induction n with
  | zero =>
    intro k hk
    rw [solve_iterative_loop]
  | succ n ih =>
    intro k hk
    have hk99 : k ≤ 99 := by omega
    have hq0 : (0:ℝ) ≤ (127/128) ^ k := by positivity
    have hq1 : ((127:ℝ)/128) ^ k ≤ 1 := pow_le_one₀ (by norm_num) (by norm_num)
    have hqlb : (29:ℝ)/128 ≤ (127/128) ^ k := by
      have h99 : ((127:ℝ)/128) ^ 99 ≤ (127/128) ^ k :=
        pow_le_pow_of_le_one (by norm_num) (by norm_num) hk99
      have hbern := one_add_mul_le_pow (show (-2:ℝ) ≤ -(1/128) by norm_num) 99
      have hb1 : (29:ℝ)/128 ≤ (1 + -(1/128)) ^ 99 := by
        calc (29:ℝ)/128 = 1 + (99:ℕ) * (-(1/128)) := by push_cast; ring
          _ ≤ (1 + -(1/128)) ^ 99 := hbern
      have hb2 : ((1:ℝ) + -(1/128)) = 127/128 := by norm_num
      rw [hb2] at hb1
      linarith
    have hres := max_residual_line_state a b p (2 - (127/128) ^ k) hu
      (by nlinarith) (by nlinarith)
    have h2r : (2:ℝ) - (2 - (127/128) ^ k) = (127/128) ^ k := by ring
    rw [h2r] at hres
    have hnc : ¬ ((127:ℝ)/128) ^ k < 1e-6 := by
      intro hcon
      have : (29:ℝ)/128 < 1e-6 := lt_of_le_of_lt hqlb hcon
      norm_num at this
    have hrel0 := relax_line_state a b ⟨100, 1e-6, 1/128⟩ p (2 - (127/128) ^ k) hu
      (by nlinarith) (by nlinarith)
    have harg : (2 - (127/128:ℝ) ^ k) +
        (⟨100, 1e-6, 1/128⟩ : SolverConfig).damping * (2 - (2 - (127/128) ^ k)) =
        2 - (127/128) ^ (k + 1) := by
      show (2 - (127/128:ℝ) ^ k) + (1/128) * (2 - (2 - (127/128) ^ k)) =
        2 - (127/128) ^ (k + 1)
      rw [pow_succ]
      ring
    rw [harg] at hrel0
    have hrel : relax_constraints ⟨100, 1e-6, 1/128⟩
        [ConstraintObj.distance
          { point_a_idx := 0, point_b_idx := 1, required_distance := 2, priority := p }]
        (line_state a b (2 - (127/128) ^ k)) =
        some (line_state a b (2 - (127/128) ^ (k + 1))) := by
      rw [relax_constraints_singleton]
      exact hrel0
    simp only [solve_iterative_loop, hres]
    rw [if_neg hnc]
    simp only [hrel]
    exact ih (k + 1) (by omega)

/-- C4 (counterexample): damping `1/128` lies in `(0, 1]`, yet the solver
holding exactly one distance constraint between `(0,0,0)` and `(1,0,0)`
(distance 1) with required distance 2, `max_iterations = 100` and default
tolerance `1e-6` returns `MaxIterationsReached`, not `Converged` — the claim
fails for small damping values. -/
theorem solver_small_damping_claim_false :
    ((0:ℝ) < 1/128 ∧ (1:ℝ)/128 ≤ 1) ∧
    ConstraintSolver.solve
      { geometry := { points := [⟨0, 0, 0⟩, ⟨1, 0, 0⟩], vectors := [] },
        constraints := [ConstraintObj.distance
          { point_a_idx := 0, point_b_idx := 1, required_distance := 2, priority := 1 }],
        config := { max_iterations := 100, tolerance := 1e-6, damping := 1/128 } } =
      some SolverResult.MaxIterationsReached ∧
    (∀ j : Nat, SolverResult.MaxIterationsReached ≠ SolverResult.Converged j) := by
  refine ⟨⟨by norm_num, by norm_num⟩, ?_, fun j h => SolverResult.noConfusion h⟩
  have hu : ((⟨1, 0, 0⟩ : Point).x - (⟨0, 0, 0⟩ : Point).x) *
        ((⟨1, 0, 0⟩ : Point).x - (⟨0, 0, 0⟩ : Point).x) +
      ((⟨1, 0, 0⟩ : Point).y - (⟨0, 0, 0⟩ : Point).y) *
        ((⟨1, 0, 0⟩ : Point).y - (⟨0, 0, 0⟩ : Point).y) +
      ((⟨1, 0, 0⟩ : Point).z - (⟨0, 0, 0⟩ : Point).z) *
        ((⟨1, 0, 0⟩ : Point).z - (⟨0, 0, 0⟩ : Point).z) = 1 := by
    norm_num
  have hstuck := solve_loop_stuck ⟨0, 0, 0⟩ ⟨1, 0, 0⟩ 1 hu 100 0 rfl
  have hstart : line_state ⟨0, 0, 0⟩ ⟨1, 0, 0⟩ (2 - (127/128) ^ 0) =
      { points := [⟨0, 0, 0⟩, ⟨1, 0, 0⟩], vectors := [] } := by
    rw [show (2:ℝ) - (127/128) ^ 0 = 1 by norm_num, line_state_one]
  rw [hstart] at hstuck
  simp only [ConstraintSolver.solve, solve_iterative, sort_by_priority, insert_by_priority,
    List.isEmpty_cons, Bool.false_eq_true, if_false]
  exact hstuck

end HarmonyArch
